import Mathlib

/-!
# Timesheets: verified embedding

A shallow embedding, in Lean 4, of the computational kernel of the
`gravitygun/timesheets` terminal timesheet application, together with proofs
of the specification's testable properties.

Modelling conventions:
* Python `datetime.date` values are embedded as their proleptic-Gregorian
  ordinals (`date.toordinal()`), of type `ℤ`; ordinal 1 is 0001-01-01, a
  Monday, so Python's `date.weekday()` is `(d - 1) % 7`.
* Python `datetime.timedelta` values are embedded as rational numbers of
  minutes (every code path constructs timedeltas from whole minutes or from
  `timedelta(hours=float(x))`, so minute-resolution rationals are exact).
* Python `Decimal` values are embedded as rationals; `Decimal.quantize` to
  two places with the default `ROUND_HALF_EVEN` context is embedded as exact
  round-half-even fixed-point rounding to centi-units.  The source's detour
  through binary floating point (`Decimal(str(td.total_seconds() / 3600))`)
  is value-preserving here: the quantities rounded are rationals of the form
  `m / 60` with `m` a whole number of minutes, whose distance from the
  nearest two-decimal rounding boundary is at least `1 / 600`, far beyond
  the double-precision error of the conversion, so the embedded exact
  rounding computes the same two-decimal result as the source.
* The SQLite tables are embedded as association lists; `INSERT OR REPLACE`
  on a keyed table deletes any row with the same key and appends the new
  row, which is SQLite's documented `REPLACE` conflict resolution.  The
  time-entry store keeps each row in the decoded form `_row_to_entry`
  returns, so the save/load round trip of durations — whole-minute
  truncation by `int(total_seconds() // 60)`, a falsy timedelta stored as
  `NULL`, and a stored 0 read back as `None` — is applied at save time
  (`dbDuration` / `dbEntry`).
-/

namespace Timesheet

/-- Round a rational to the nearest integer, ties to the even integer.
This is `decimal.ROUND_HALF_EVEN`, the default rounding of Python's
`Decimal.quantize`. -/
def roundHalfEven (q : ℚ) : ℤ :=
  if q - ⌊q⌋ < 1 / 2 then ⌊q⌋
  else if 1 / 2 < q - ⌊q⌋ then ⌊q⌋ + 1
  else if ⌊q⌋ % 2 = 0 then ⌊q⌋ else ⌊q⌋ + 1

/-- `Decimal(str(x)).quantize(Decimal("0.01"))`: round to two decimal
places, half to even. -/
def quantize2 (q : ℚ) : ℚ := (roundHalfEven (100 * q) : ℚ) / 100

/-! ## Date utilities (`src/utils.py`)

Dates are proleptic-Gregorian ordinals (`ℤ`). -/

/-- Python's `date.weekday()`: Monday = 0 … Sunday = 6.  Ordinal 1
(0001-01-01) is a Monday. -/
def pythonWeekday (d : ℤ) : ℤ := (d - 1) % 7

/-- `utils.get_week_start`: the Saturday that starts the week containing
`d`, via the `(weekday + 2) % 7` offset. -/
def get_week_start (d : ℤ) : ℤ := d - ((pythonWeekday d + 2) % 7)

/-- Whether `y` is a Gregorian leap year (`calendar.isleap`). -/
def isLeapYear (y : ℤ) : Bool := y % 4 == 0 && (y % 100 != 0 || y % 400 == 0)

/-- Number of days in month `m` of year `y` (`calendar.monthrange(y, m)[1]`). -/
def daysInMonth (y m : ℤ) : ℤ :=
  if m = 2 then (if isLeapYear y then 29 else 28)
  else if m = 4 ∨ m = 6 ∨ m = 9 ∨ m = 11 then 30
  else 31

/-- Days in all years before year `y` (year ≥ 1; the divisions are on
nonnegative numbers, where Lean's integer division agrees with Python's
floor division). -/
def daysBeforeYear (y : ℤ) : ℤ :=
  let p := y - 1
  p * 365 + p / 4 - p / 100 + p / 400

/-- Days in the first `n` months of year `y`. -/
def daysInFirstMonths (y : ℤ) : ℕ → ℤ
  | 0 => 0
  | n + 1 => daysInFirstMonths y n + daysInMonth y (n + 1)

/-- Days of year `y` strictly before month `m`. -/
def daysBeforeMonth (y m : ℤ) : ℤ := daysInFirstMonths y (m - 1).toNat

/-- `date(y, m, d).toordinal()`: proleptic-Gregorian ordinal of a date. -/
def toOrdinal (y m d : ℤ) : ℤ := daysBeforeYear y + daysBeforeMonth y m + d

/-- The `while` loop of `utils.get_weeks_in_month`: starting from week
start `ws`, collect `(week_start, week_end)` pairs stepping by 7 days while
the week start is on or before `lastDay`. -/
def weeksLoop (ws lastDay : ℤ) : List (ℤ × ℤ) :=
  if ws ≤ lastDay then (ws, ws + 6) :: weeksLoop (ws + 7) lastDay
  else []
termination_by (lastDay + 1 - ws).toNat
decreasing_by simp_wf; omega

/-- `utils.get_weeks_in_month`: the `(week_start, week_end)` pairs that
overlap with the month. -/
def get_weeks_in_month (y m : ℤ) : List (ℤ × ℤ) :=
  weeksLoop (get_week_start (toOrdinal y m 1)) (toOrdinal y m (daysInMonth y m))

/-- The offset subtracted by `get_week_start` is between 0 and 6, so the
week start is on or before the date, at most six days earlier. -/
theorem get_week_start_le (d : ℤ) : get_week_start d ≤ d := by
  unfold get_week_start pythonWeekday
  omega

/-- Every month has at least one day (`daysInMonth` is 28, 29, 30 or 31). -/
theorem daysInMonth_pos (y m : ℤ) : 1 ≤ daysInMonth y m := by
  unfold daysInMonth
  split_ifs <;> norm_num

/-- `toOrdinal` is linear in the day-of-month argument. -/
theorem toOrdinal_day (y m d : ℤ) : toOrdinal y m d = toOrdinal y m 1 + (d - 1) := by
  unfold toOrdinal
  ring

/-- Every pair produced by `weeksLoop` starts at or after `ws`, starts on
or before `lastDay`, and spans exactly seven days. -/
theorem weeksLoop_mem_shape (ws lastDay : ℤ) :
    ∀ p ∈ weeksLoop ws lastDay, ws ≤ p.1 ∧ p.1 ≤ lastDay ∧ p.2 = p.1 + 6 := by
  induction ws, lastDay using weeksLoop.induct with
  | case1 ws lastDay h ih =>
    rw [weeksLoop, if_pos h]
    intro p hp
    rcases List.mem_cons.mp hp with rfl | hp'
    · exact ⟨le_refl _, h, rfl⟩
    · obtain ⟨h1, h2, h3⟩ := ih p hp'
      exact ⟨by omega, h2, h3⟩
  | case2 ws lastDay h =>
    rw [weeksLoop, if_neg h]
    simp

/-- Consecutive pairs produced by `weeksLoop` are contiguous: each week
starts the day after the previous week ends. -/
theorem weeksLoop_chain (ws lastDay : ℤ) :
    List.Chain' (fun p q : ℤ × ℤ => q.1 = p.2 + 1) (weeksLoop ws lastDay) := by
  induction ws, lastDay using weeksLoop.induct with
  | case1 ws lastDay h ih =>
    rw [weeksLoop, if_pos h]
    refine List.chain'_cons'.mpr ⟨?_, ih⟩
    intro q hq
    rw [weeksLoop] at hq
    by_cases h7 : ws + 7 ≤ lastDay
    · rw [if_pos h7] at hq
      simp only [List.head?_cons, Option.mem_def, Option.some.injEq] at hq
      subst hq
      omega
    · rw [if_neg h7] at hq
      simp at hq
  | case2 ws lastDay h =>
    rw [weeksLoop, if_neg h]
    simp

/-- The pairs produced by `weeksLoop` are pairwise non-overlapping: every
earlier week ends strictly before every later week starts. -/
theorem weeksLoop_pairwise (ws lastDay : ℤ) :
    List.Pairwise (fun p q : ℤ × ℤ => p.2 < q.1) (weeksLoop ws lastDay) := by
  induction ws, lastDay using weeksLoop.induct with
  | case1 ws lastDay h ih =>
    rw [weeksLoop, if_pos h]
    refine List.pairwise_cons.mpr ⟨?_, ih⟩
    intro q hq
    obtain ⟨h1, _, _⟩ := weeksLoop_mem_shape (ws + 7) lastDay q hq
    omega
  | case2 ws lastDay h =>
    rw [weeksLoop, if_neg h]
    simp

/-- Every day between `ws` and `lastDay` is contained in one of the pairs
produced by `weeksLoop`. -/
theorem weeksLoop_cover (ws lastDay : ℤ) :
    ∀ x : ℤ, ws ≤ x → x ≤ lastDay →
      ∃ p ∈ weeksLoop ws lastDay, p.1 ≤ x ∧ x ≤ p.2 := by
  induction ws, lastDay using weeksLoop.induct with
  | case1 ws lastDay h ih =>
    intro x hx1 hx2
    rw [weeksLoop, if_pos h]
    by_cases hx7 : x ≤ ws + 6
    · exact ⟨(ws, ws + 6), List.mem_cons_self _ _, hx1, hx7⟩
    · obtain ⟨p, hp, h1, h2⟩ := ih x (by omega) hx2
      exact ⟨p, List.mem_cons_of_mem _ hp, h1, h2⟩
  | case2 ws lastDay h =>
    intro x hx1 hx2
    omega

/-! ## Domain records (`src/models.py`) -/

/-- A wall-clock time as stored in a Python `datetime.time(hour, minute)`
(the application only ever constructs times from an hour and a minute). -/
structure Clock where
  hour : ℤ
  minute : ℤ
  deriving Repr, DecidableEq

/-- Minutes since midnight: `timedelta(hours=t.hour, minutes=t.minute)`
measured in minutes. -/
def clockMinutes (t : Clock) : ℚ := 60 * t.hour + t.minute

/-- `models.TimeEntry`.  Durations (`lunch_duration`, `adjustment`) are
timedeltas, embedded as rational minutes. -/
structure TimeEntry where
  date : ℤ
  day_of_week : String
  clock_in : Option Clock := none
  lunch_duration : Option ℚ := none
  clock_out : Option Clock := none
  adjustment : Option ℚ := none
  adjust_type : Option String := none
  comment : Option String := none
  deriving Repr, DecidableEq

/-- `TimeEntry.worked_hours`.  Zero when clock-in or clock-out is `None`
(in Python ≥ 3.5 every `time` object is truthy, so `not self.clock_in`
tests exactly for `None`); otherwise
`Decimal(str((end - start - lunch).total_seconds() / 3600)).quantize(Decimal("0.01"))`,
where `lunch = self.lunch_duration or timedelta()` collapses both `None`
and a zero timedelta to zero. -/
def worked_hours (e : TimeEntry) : ℚ :=
  match e.clock_in, e.clock_out with
  | some ci, some co =>
      let start := clockMinutes ci
      let stop := clockMinutes co
      let lunch := e.lunch_duration.getD 0
      let worked := stop - start - lunch
      quantize2 (worked * 60 / 3600)
  | _, _ => 0

/-- `TimeEntry.adjusted_hours`: zero when the adjustment is `None` (or a
zero, hence falsy, timedelta); otherwise the adjustment in hours rounded
to two places. -/
def adjusted_hours (e : TimeEntry) : ℚ :=
  if e.adjustment.getD 0 = 0 then 0
  else quantize2 (e.adjustment.getD 0 * 60 / 3600)

/-- `TimeEntry.total_hours`: worked plus adjustment hours. -/
def total_hours (e : TimeEntry) : ℚ := worked_hours e + adjusted_hours e

/-! ## Theorems for claim C2 -/

/-- **C2.** For every date `d`, `get_week_start d` is a Saturday
(Python weekday 5), and `get_week_start d ≤ d ≤ get_week_start d + 6`. -/
theorem get_week_start_is_saturday_on_or_before (d : ℤ) :
    pythonWeekday (get_week_start d) = 5 ∧
      get_week_start d ≤ d ∧ d ≤ get_week_start d + 6 := by
  unfold get_week_start pythonWeekday
  omega

/-- Modelled from the spec: the `Ticket` dataclass is imported by
`storage.py` from `models` but its definition is not under `src/`.  Per
the spec's data model it is keyed by a short alphanumeric id and carries a
description, an archived flag and a creation date (the storage schema
stores `archived` with default 0 and a nullable `created_at`). -/
structure Ticket where
  id : String
  description : String
  archived : Bool := false
  created_at : Option ℤ := none
  deriving Repr, DecidableEq

/-- Modelled from the spec: the `TicketAllocation` dataclass is imported
by `storage.py` from `models` but its definition is not under `src/`.  Per
the spec's data model it is keyed by the unique pair (ticket id, date) and
carries the allocated hours (decimal) and an entered-on-client boolean
flag; the flag defaults to false, matching the storage schema's
`entered_on_client INTEGER DEFAULT 0` and the constructions in `app.py`
and the tests that omit it. -/
structure TicketAllocation where
  ticket_id : String
  date : ℤ
  hours : ℚ
  entered_on_client : Bool := false
  deriving Repr, DecidableEq

/-! ## Persistence layer (`src/storage.py`)

The `time_entries` table, keyed by date (`PRIMARY KEY`), as an association
list. -/

/-- The `time_entries` table: rows keyed by date. -/
abbrev EntryStore := List (ℤ × TimeEntry)

/-- `storage.get_entry`: `SELECT * FROM time_entries WHERE date = ?`,
decoded by `_row_to_entry` (the store below holds rows already in decoded
normal form, see `dbEntry`). -/
def get_entry (s : EntryStore) (d : ℤ) : Option TimeEntry :=
  (s.find? (fun p => p.1 == d)).map (fun p => p.2)

/-- How a duration survives the save/load round trip: `storage.save_entry`
stores `int(duration.total_seconds() // 60)` whole minutes (`None` when
the timedelta is falsy, i.e. `None` or zero), and `_row_to_entry` reads a
stored 0 — or `NULL` — back as `None`.  With the duration as `m` rational
minutes the stored value is `⌊m⌋` (Python `//` is floor division), so the
round trip yields `None` exactly when `⌊m⌋ = 0`, and `⌊m⌋` minutes
otherwise. -/
def dbDuration (t : Option ℚ) : Option ℚ :=
  match t with
  | none => none
  | some m => if ⌊m⌋ = 0 then none else some ((⌊m⌋ : ℤ) : ℚ)

/-- The entry as read back after `storage.save_entry` followed by
`_row_to_entry`: clock times round-trip unchanged through `%H:%M`
(`datetime.time` keeps `0 ≤ hour < 24`, `0 ≤ minute < 60`), the text
fields are stored verbatim, and the two durations go through the
whole-minute truncation and zero collapse of `dbDuration`. -/
def dbEntry (e : TimeEntry) : TimeEntry :=
  { e with
    lunch_duration := dbDuration e.lunch_duration
    adjustment := dbDuration e.adjustment }

/-- `storage.save_entry`: `INSERT OR REPLACE INTO time_entries ...`.
SQLite's `REPLACE` resolution deletes any row with the conflicting primary
key and inserts the new row; the store keeps the row in the decoded normal
form `dbEntry e` that `get_entry` will return. -/
def save_entry (s : EntryStore) (e : TimeEntry) : EntryStore :=
  s.filter (fun p => p.1 != e.date) ++ [(e.date, dbEntry e)]

/-- Python's `%a` day-of-week abbreviation used by `populate_holidays`. -/
def dowName (d : ℤ) : String :=
  ["Mon", "Tue", "Wed", "Thu", "Fri", "Sat", "Sun"].getD (pythonWeekday d).toNat ""

/-- The entry that `populate_holidays` writes for a holiday: adjustment set
to the standard day length (`timedelta(hours=float(standard_hours))`, i.e.
`60 * standard_hours` minutes), type `P`, comment the holiday name. -/
def holidayEntry (d : ℤ) (standard_hours : ℚ) (name : String) : TimeEntry :=
  { date := d
    day_of_week := dowName d
    adjustment := some (60 * standard_hours)
    adjust_type := some "P"
    comment := some name }

/-- The guard `not existing.clock_in and not existing.adjustment` of
`populate_holidays`: the entry carries no data.  A `None` clock-in is
falsy, and an adjustment is falsy when it is `None` or a zero timedelta. -/
def entryHasNoData (e : TimeEntry) : Bool :=
  e.clock_in.isNone && (e.adjustment.getD 0 == 0)

/-- One iteration of the `populate_holidays` loop, threading the running
count and the store. -/
def populateStep (standard_hours : ℚ) (acc : ℕ × EntryStore) (h : ℤ × String) :
    ℕ × EntryStore :=
  match get_entry acc.2 h.1 with
  | none => (acc.1 + 1, save_entry acc.2 (holidayEntry h.1 standard_hours h.2))
  | some e =>
      if entryHasNoData e then
        (acc.1 + 1, save_entry acc.2 (holidayEntry h.1 standard_hours h.2))
      else acc

/-- `storage.populate_holidays`, parameterised by the holiday calendar.
The source obtains `holidays_in_month` from `get_holidays_in_range`, which
queries the external `holidays` library; here that lookup's result — the
`(date, name)` items of the dictionary, in iteration order — is the
argument `hs`.  Returns the count of entries created and the new store. -/
def populate_holidays (hs : List (ℤ × String)) (standard_hours : ℚ)
    (s : EntryStore) : ℕ × EntryStore :=
  hs.foldl (populateStep standard_hours) (0, s)

/-! ## Store lemmas -/

/-- Reading back after `save_entry`: the saved date now maps to the saved
entry, every other date is untouched. -/
theorem find?_key_filter_ne (t : List (ℤ × TimeEntry)) (k d : ℤ) :
    (t.filter (fun p => p.1 != k)).find? (fun p => p.1 == d) =
      if d = k then none else t.find? (fun p => p.1 == d) := by
  induction t with
  | nil => by_cases hd : d = k <;> simp [hd]
  | cons a t ih =>
    by_cases hak : a.1 = k
    · by_cases had : a.1 = d
      · have hdk : d = k := had ▸ hak
        rw [List.filter_cons, if_neg (by simp [hak]), ih, if_pos hdk, if_pos hdk]
      · rw [List.filter_cons, if_neg (by simp [hak]), ih]
        by_cases hdk : d = k
        · simp [hdk]
        · rw [if_neg hdk, if_neg hdk, List.find?_cons_of_neg _ (by simp [had])]
    · by_cases had : a.1 = d
      · have hdk : ¬d = k := fun h => hak (had.trans h)
        rw [List.filter_cons, if_pos (by simp [hak]),
          List.find?_cons_of_pos _ (by simp [had]), if_neg hdk,
          List.find?_cons_of_pos _ (by simp [had])]
      · rw [List.filter_cons, if_pos (by simp [hak]),
          List.find?_cons_of_neg _ (by simp [had]), ih]
        by_cases hdk : d = k
        · simp [hdk]
        · rw [if_neg hdk, if_neg hdk, List.find?_cons_of_neg _ (by simp [had])]

/-- Reading back after `save_entry`: the saved date now maps to the saved
entry, every other date is untouched. -/
theorem get_entry_save_entry (s : EntryStore) (e : TimeEntry) (d : ℤ) :
    get_entry (save_entry s e) d =
      if d = e.date then some (dbEntry e) else get_entry s d := by
  simp only [get_entry, save_entry, List.find?_append, find?_key_filter_ne]
  by_cases hd : d = e.date
  · simp [hd]
  · simp [hd, show (e.date == d) = false by simp [Ne.symm hd]]

/-- A `populate_holidays` iteration never changes the stored entry of a
date that holds a non-blank entry. -/
theorem populateStep_preserves_nonblank (standard_hours : ℚ) (acc : ℕ × EntryStore)
    (h : ℤ × String) (d : ℤ) (e : TimeEntry) (he : entryHasNoData e = false)
    (hget : get_entry acc.2 d = some e) :
    get_entry (populateStep standard_hours acc h).2 d = some e := by
  unfold populateStep
  by_cases hd : h.1 = d
  · subst hd
    rw [hget]
    simp [he, hget]
  · cases hg : get_entry acc.2 h.1 with
    | none => simpa [get_entry_save_entry, holidayEntry, Ne.symm hd] using hget
    | some e2 =>
      by_cases hnd : entryHasNoData e2
      · simpa [hnd, get_entry_save_entry, holidayEntry, Ne.symm hd] using hget
      · simpa [hnd] using hget

/-- The `populate_holidays` loop never changes the stored entry of a date
that holds a non-blank entry. -/
theorem populate_foldl_preserves_nonblank (hs : List (ℤ × String)) (standard_hours : ℚ) :
    ∀ (acc : ℕ × EntryStore) (d : ℤ) (e : TimeEntry), entryHasNoData e = false →
      get_entry acc.2 d = some e →
      get_entry ((hs.foldl (populateStep standard_hours) acc).2) d = some e := by
  induction hs with
  | nil => intro acc d e he hget; simpa using hget
  | cons h t ih =>
    intro acc d e he hget
    rw [List.foldl_cons]
    exact ih _ d e he (populateStep_preserves_nonblank standard_hours acc h d e he hget)

/-- When the standard day length survives the store's whole-minute
truncation non-zero (`⌊60 · standard_hours⌋ ≠ 0`), one `populate_holidays`
iteration leaves its own holiday date holding a non-blank entry. -/
theorem populateStep_establishes (standard_hours : ℚ)
    (hstd : ⌊60 * standard_hours⌋ ≠ 0)
    (acc : ℕ × EntryStore) (h : ℤ × String) :
    ∃ e, get_entry (populateStep standard_hours acc h).2 h.1 = some e ∧
      entryHasNoData e = false := by
  unfold populateStep
  have hnew : entryHasNoData (dbEntry (holidayEntry h.1 standard_hours h.2)) = false := by
    simp [entryHasNoData, dbEntry, dbDuration, holidayEntry, hstd]
  cases hg : get_entry acc.2 h.1 with
  | none =>
    exact ⟨dbEntry (holidayEntry h.1 standard_hours h.2),
      by simp [get_entry_save_entry, holidayEntry], hnew⟩
  | some e =>
    by_cases hnd : entryHasNoData e
    · exact ⟨dbEntry (holidayEntry h.1 standard_hours h.2),
        by simp [hnd, get_entry_save_entry, holidayEntry], hnew⟩
    · exact ⟨e, by simpa [hnd] using hg, by simpa using hnd⟩

/-- When the standard day length survives the store's whole-minute
truncation non-zero, after the `populate_holidays` loop every holiday
date holds a non-blank entry. -/
theorem populate_foldl_establishes (standard_hours : ℚ)
    (hstd : ⌊60 * standard_hours⌋ ≠ 0) :
    ∀ (hs : List (ℤ × String)) (acc : ℕ × EntryStore), ∀ p ∈ hs,
      ∃ e, get_entry ((hs.foldl (populateStep standard_hours) acc).2) p.1 = some e ∧
        entryHasNoData e = false := by
  intro hs
  induction hs with
  | nil => intro acc p hp; cases hp
  | cons h t ih =>
    intro acc p hp
    rw [List.foldl_cons]
    rcases List.mem_cons.mp hp with rfl | hp'
    · obtain ⟨e, hg, he⟩ := populateStep_establishes standard_hours hstd acc p
      exact ⟨e, populate_foldl_preserves_nonblank t standard_hours _ p.1 e he hg, he⟩
    · exact ih _ p hp'

/-- The count threaded through the `populate_holidays` loop never
decreases. -/
theorem populate_foldl_count_ge (hs : List (ℤ × String)) (standard_hours : ℚ) :
    ∀ acc : ℕ × EntryStore, acc.1 ≤ (hs.foldl (populateStep standard_hours) acc).1 := by
  induction hs with
  | nil => intro acc; simp
  | cons h t ih =>
    intro acc
    rw [List.foldl_cons]
    refine le_trans ?_ (ih _)
    unfold populateStep
    cases get_entry acc.2 h.1 with
    | none => simp
    | some e => by_cases hnd : entryHasNoData e <;> simp [hnd]

/-- When every holiday date already holds a non-blank entry, the
`populate_holidays` loop is a no-op. -/
theorem populate_foldl_noop (standard_hours : ℚ) :
    ∀ (hs : List (ℤ × String)) (acc : ℕ × EntryStore),
      (∀ p ∈ hs, ∃ e, get_entry acc.2 p.1 = some e ∧ entryHasNoData e = false) →
      hs.foldl (populateStep standard_hours) acc = acc := by
  intro hs
  induction hs with
  | nil => intro acc _; rfl
  | cons h t ih =>
    intro acc hall
    obtain ⟨e, hg, he⟩ := hall h (List.mem_cons_self h t)
    have hstep : populateStep standard_hours acc h = acc := by
      unfold populateStep
      rw [hg]
      simp [he]
    rw [List.foldl_cons, hstep]
    exact ih acc (fun p hp => hall p (List.mem_cons_of_mem h hp))

/-! ## Ticket and allocation storage (`src/storage.py`) -/

/-- `storage.can_delete_ticket`:
`SELECT COUNT(*) FROM ticket_allocations WHERE ticket_id = ?` is zero. -/
def can_delete_ticket (al : List TicketAllocation) (ticket_id : String) : Bool :=
  (al.filter (fun a => a.ticket_id == ticket_id)).length == 0

/-- `storage.delete_ticket`: refuses (returning `False`) when
`can_delete_ticket` fails, otherwise deletes the ticket row and returns
`True`.  Returns the flag and the resulting `tickets` table. -/
def delete_ticket (tk : List Ticket) (al : List TicketAllocation)
    (ticket_id : String) : Bool × List Ticket :=
  if can_delete_ticket al ticket_id then
    (true, tk.filter (fun t => t.id != ticket_id))
  else (false, tk)

/-- `storage.save_allocation`: `INSERT OR REPLACE INTO ticket_allocations`
under the `UNIQUE(ticket_id, date)` constraint: any row with the same
(ticket id, date) pair is deleted and the new row inserted. -/
def save_allocation (al : List TicketAllocation) (a : TicketAllocation) :
    List TicketAllocation :=
  al.filter (fun x => !(x.ticket_id == a.ticket_id && x.date == a.date)) ++ [a]

/-- `storage.delete_allocation`:
`DELETE FROM ticket_allocations WHERE ticket_id = ? AND date = ?`. -/
def delete_allocation (al : List TicketAllocation) (ticket_id : String) (d : ℤ) :
    List TicketAllocation :=
  al.filter (fun x => !(x.ticket_id == ticket_id && x.date == d))

/-- The stored row for a (ticket id, date) key, unique by the table's
`UNIQUE(ticket_id, date)` constraint. -/
def get_allocation (al : List TicketAllocation) (ticket_id : String) (d : ℤ) :
    Option TicketAllocation :=
  al.find? (fun x => x.ticket_id == ticket_id && x.date == d)

/-- `storage.get_total_allocated_hours`:
`SELECT COALESCE(SUM(CAST(hours AS REAL)), 0) ... WHERE date = ?`,
quantized to two decimal places. -/
def get_total_allocated_hours (al : List TicketAllocation) (d : ℤ) : ℚ :=
  quantize2 ((al.filter (fun a => a.date == d)).foldl (fun acc a => acc + a.hours) 0)

/-! ## Presentation-layer logic (`src/screens.py`, `src/app.py`) -/

/-- Python's `str.strip()`: drop leading and trailing whitespace (embedded
on the string's character list, which the kernel can evaluate). -/
def pyStrip (s : String) : String :=
  ⟨((s.data.dropWhile Char.isWhitespace).reverse.dropWhile Char.isWhitespace).reverse⟩

/-- Python's `str.upper()` on the ASCII letters the form accepts. -/
def pyUpper (s : String) : String :=
  ⟨s.data.map Char.toUpper⟩

/-- The already-parsed field values of the edit-day form when Save is
pressed (`EditDayScreen._save_entry` reads them from the input widgets;
clock times and the lunch and adjustment numbers pass through
`_parse_time` / `int` / `float`, while the adjust-type and comment fields
are kept as raw text).  The adjustment is in hours, as entered. -/
structure DayFormInput where
  clock_in : Option Clock := none
  clock_out : Option Clock := none
  lunch : Option ℚ := none
  adjustment : Option ℚ := none
  adjust_type_val : String := ""
  comment_val : String := ""

/-- Python truthiness of an optional timedelta: `None` and a zero
timedelta are falsy. -/
def timedeltaTruthy (t : Option ℚ) : Bool :=
  match t with
  | none => false
  | some a => a != 0

/-- `EditDayScreen._save_entry` followed by the caller's
`storage.save_entry` on success (`_on_day_edit_complete` /
`_on_edit_complete` in `app.py`): validates the adjust-type letter and the
adjustment-requires-type rule; on failure notifies and leaves the store
untouched, on success dismisses with the updated entry, which the caller
saves.  Returns the resulting store and the error notification, if any. -/
def save_entry_flow (s : EntryStore) (entryDate : ℤ) (entryDow : String)
    (inp : DayFormInput) : EntryStore × Option String :=
  let adjust_type_up := pyUpper (pyStrip inp.adjust_type_val)
  let adjust_type : Option String :=
    if adjust_type_up ∈ ["L", "S", "T", "P"] then some adjust_type_up else none
  if pyStrip inp.adjust_type_val ≠ "" ∧ adjust_type = none then
    (s, some "Invalid adjust type. Use L, S, T, or P")
  else if timedeltaTruthy inp.adjustment ∧ adjust_type = none then
    (s, some "Adjustment hours require an adjust type")
  else
    let comment : Option String :=
      if pyStrip inp.comment_val = "" then none else some (pyStrip inp.comment_val)
    let updated : TimeEntry :=
      { date := entryDate
        day_of_week := entryDow
        clock_in := inp.clock_in
        lunch_duration := inp.lunch
        clock_out := inp.clock_out
        adjustment := inp.adjustment.map (fun h => 60 * h)
        adjust_type := adjust_type
        comment := comment }
    (save_entry s updated, none)

/-- `TimesheetApp._get_allocation_status`: the styled status indicator for
a day, as a (symbol, style) pair. -/
def get_allocation_status (al : List TicketAllocation) (d : ℤ)
    (worked : ℚ) : String × String :=
  if worked = 0 then ("-", "dim")
  else
    let total_allocated := get_total_allocated_hours al d
    if total_allocated = 0 then ("?", "dim")
    else if total_allocated < worked then ("↓", "yellow")
    else if total_allocated > worked then ("↑", "red")
    else ("✓", "green")

/-- `TimesheetApp._on_allocation_edited` for a completed edit (a result
and a captured target date are present): positive hours upsert a fresh
allocation built from only the ticket id, date and hours; otherwise the
allocation for the pair is deleted. -/
def on_allocation_edited (al : List TicketAllocation) (ticket_id : String)
    (target_date : ℤ) (hours : ℚ) : List TicketAllocation :=
  if hours > 0 then
    save_allocation al { ticket_id := ticket_id, date := target_date, hours := hours }
  else delete_allocation al ticket_id target_date

/-! ## Theorems for claim C1 -/

/-- **C1.** `worked_hours` is zero whenever clock-in or clock-out is
absent; when both are present it equals
`(clock_out minutes - clock_in minutes - lunch minutes) / 60` (lunch zero
when absent), rounded to two decimal places half-to-even, with a negative
result (clock-out earlier than clock-in) returned unclamped. -/
theorem worked_hours_spec (e : TimeEntry) :
    ((e.clock_in = none ∨ e.clock_out = none) → worked_hours e = 0) ∧
    (∀ ci co, e.clock_in = some ci → e.clock_out = some co →
      worked_hours e =
        quantize2 ((clockMinutes co - clockMinutes ci - e.lunch_duration.getD 0) / 60)) := by
  constructor
  · intro h
    rcases hci : e.clock_in with _ | ci <;> rcases hco : e.clock_out with _ | co <;>
        simp only [worked_hours, hci, hco] <;> simp [hci, hco] at h
  · intro ci co hci hco
    simp only [worked_hours, hci, hco]
    congr 1
    ring

/-- A concrete entry whose clock-out (09:00) is earlier than its clock-in
(17:00), with a 30-minute lunch. -/
def entryOvernight : TimeEntry :=
  { date := 739610
    day_of_week := "Thu"
    clock_in := some ⟨17, 0⟩
    lunch_duration := some 30
    clock_out := some ⟨9, 0⟩ }

/-- Witness for C1 at `entryOvernight`: the result is the claim's formula,
and concretely the unclamped negative `-8.50`. -/
theorem worked_hours_spec_witness :
    worked_hours entryOvernight =
      quantize2 ((clockMinutes ⟨9, 0⟩ - clockMinutes ⟨17, 0⟩ -
        entryOvernight.lunch_duration.getD 0) / 60) ∧
    worked_hours entryOvernight = -17 / 2 :=
  ⟨(worked_hours_spec entryOvernight).2 ⟨17, 0⟩ ⟨9, 0⟩ rfl rfl, by
    simp only [worked_hours, entryOvernight, quantize2, roundHalfEven, clockMinutes,
      Option.getD_some]
    norm_num⟩

/-! ## Theorems for claim C3 -/

/-- **C3.** For every valid `(year, month)`, `get_weeks_in_month` returns
an ordered list of `(week_start, week_end)` pairs that are each exactly 7
days long, contiguous (each week starts the day after the previous week
ends), pairwise non-overlapping, and whose union contains every day of the
month. -/
theorem get_weeks_in_month_spec (y m : ℤ) (hy : 1 ≤ y) (hm1 : 1 ≤ m) (hm2 : m ≤ 12) :
    (∀ p ∈ get_weeks_in_month y m, p.2 = p.1 + 6) ∧
    List.Chain' (fun p q : ℤ × ℤ => q.1 = p.2 + 1) (get_weeks_in_month y m) ∧
    List.Pairwise (fun p q : ℤ × ℤ => p.2 < q.1) (get_weeks_in_month y m) ∧
    ∀ x : ℤ, toOrdinal y m 1 ≤ x → x ≤ toOrdinal y m (daysInMonth y m) →
      ∃ p ∈ get_weeks_in_month y m, p.1 ≤ x ∧ x ≤ p.2 := by
  refine ⟨?_, weeksLoop_chain _ _, weeksLoop_pairwise _ _, ?_⟩
  · intro p hp
    exact (weeksLoop_mem_shape _ _ p hp).2.2
  · intro x hx1 hx2
    exact weeksLoop_cover _ _ x (le_trans (get_week_start_le _) hx1) hx2

/-- Witness for C3: the properties at the concrete month February 2026. -/
theorem get_weeks_in_month_spec_witness :
    (∀ p ∈ get_weeks_in_month 2026 2, p.2 = p.1 + 6) ∧
    List.Chain' (fun p q : ℤ × ℤ => q.1 = p.2 + 1) (get_weeks_in_month 2026 2) ∧
    List.Pairwise (fun p q : ℤ × ℤ => p.2 < q.1) (get_weeks_in_month 2026 2) ∧
    ∀ x : ℤ, toOrdinal 2026 2 1 ≤ x → x ≤ toOrdinal 2026 2 (daysInMonth 2026 2) →
      ∃ p ∈ get_weeks_in_month 2026 2, p.1 ≤ x ∧ x ≤ p.2 :=
  get_weeks_in_month_spec 2026 2 (by norm_num) (by norm_num) (by norm_num)

/-! ## Theorems for claims C4 and C5 -/

/-- **C4 (amended).** When the standard day length stores a non-zero
whole number of minutes — `⌊60 · std_hours⌋ ≠ 0`, in particular whenever
`std_hours` is at least one minute — `populate_holidays` is idempotent: a
second call on the same month with the same arguments creates no new
entries and returns 0; and, starting from an empty store, the first call
returns a count > 0 whenever the month contains weekday public holidays.
(As literally stated the claim fails when the stored adjustment truncates
to zero minutes, e.g. for `std_hours = 0.01`, see the counterexample.) -/
theorem populate_holidays_idempotent (hs : List (ℤ × String)) (standard_hours : ℚ)
    (s : EntryStore) (hstd : ⌊60 * standard_hours⌋ ≠ 0) :
    populate_holidays hs standard_hours (populate_holidays hs standard_hours s).2 =
      (0, (populate_holidays hs standard_hours s).2) ∧
    (s = [] → hs ≠ [] → 0 < (populate_holidays hs standard_hours s).1) := by
  constructor
  · have hall : ∀ p ∈ hs, ∃ e,
        get_entry (populate_holidays hs standard_hours s).2 p.1 = some e ∧
          entryHasNoData e = false :=
      populate_foldl_establishes standard_hours hstd hs (0, s)
    exact populate_foldl_noop standard_hours hs _ hall
  · rintro rfl hne
    cases hs with
    | nil => exact absurd rfl hne
    | cons h t =>
      have hstep : populateStep standard_hours (0, ([] : EntryStore)) h =
          (1, save_entry [] (holidayEntry h.1 standard_hours h.2)) := by
        unfold populateStep get_entry
        simp
      have hge := populate_foldl_count_ge t standard_hours
        (1, save_entry [] (holidayEntry h.1 standard_hours h.2))
      show 0 < ((h :: t).foldl (populateStep standard_hours) (0, ([] : EntryStore))).1
      rw [List.foldl_cons, hstep]
      omega

/-- Witness for C4 at Christmas Day 2025 with the default 7.5-hour day. -/
theorem populate_holidays_idempotent_witness :
    populate_holidays [(739610, "Christmas Day")] (15 / 2)
        (populate_holidays [(739610, "Christmas Day")] (15 / 2) []).2 =
      (0, (populate_holidays [(739610, "Christmas Day")] (15 / 2) []).2) ∧
    (([] : EntryStore) = [] → ([(739610, "Christmas Day")] : List (ℤ × String)) ≠ [] →
      0 < (populate_holidays [(739610, "Christmas Day")] (15 / 2) []).1) :=
  populate_holidays_idempotent [(739610, "Christmas Day")] (15 / 2) []
    (by norm_num)

/-- Counterexample to C4 as literally stated: with
`standard_hours = 0.01` (non-zero!) the first call stores
`int(timedelta(hours=0.01).total_seconds() // 60) = 0` adjustment
minutes, which `_row_to_entry` reads back as `None`, so the guard
`not existing.clock_in and not existing.adjustment` treats the entry as
blank and the second identical call re-creates it, returning 1, not 0. -/
theorem populate_holidays_counterexample :
    (populate_holidays [(739610, "Christmas Day")] (1 / 100)
        (populate_holidays [(739610, "Christmas Day")] (1 / 100) []).2).1 ≠ 0 := by
  have h1 : populate_holidays [(739610, "Christmas Day")] (1 / 100) [] =
      (1, [(739610, dbEntry (holidayEntry 739610 (1 / 100) "Christmas Day"))]) := by
    simp [populate_holidays, populateStep, get_entry, save_entry, holidayEntry]
  have h2 : entryHasNoData (dbEntry (holidayEntry 739610 (1 / 100) "Christmas Day")) =
      true := by
    norm_num [entryHasNoData, dbEntry, holidayEntry, dbDuration]
  have h3 : get_entry [(739610, dbEntry (holidayEntry 739610 (1 / 100) "Christmas Day"))]
      739610 = some (dbEntry (holidayEntry 739610 (1 / 100) "Christmas Day")) := by
    simp [get_entry]
  rw [h1]
  simp only [populate_holidays, List.foldl_cons, List.foldl_nil, populateStep, h3, h2]
  decide

/-- **C5.** `populate_holidays` never overwrites an existing non-blank
entry: any date holding an entry that carries data before the call holds
the identical entry after the call, for every standard day length. -/
theorem populate_holidays_never_overwrites (hs : List (ℤ × String))
    (standard_hours : ℚ) (s : EntryStore) (d : ℤ) (e : TimeEntry)
    (he : entryHasNoData e = false) (hget : get_entry s d = some e) :
    get_entry (populate_holidays hs standard_hours s).2 d = some e :=
  populate_foldl_preserves_nonblank hs standard_hours (0, s) d e he hget

/-- A concrete worked entry (in 09:00, lunch 30 m, out 17:00). -/
def entryWorked : TimeEntry :=
  { date := 739610
    day_of_week := "Thu"
    clock_in := some ⟨9, 0⟩
    lunch_duration := some 30
    clock_out := some ⟨17, 0⟩ }

/-- Witness for C5: populating holidays over a store that already has a
non-blank entry on the holiday date leaves that entry intact. -/
theorem populate_holidays_never_overwrites_witness :
    get_entry (populate_holidays [(739610, "Christmas Day")] (15 / 2)
        [(739610, entryWorked)]).2 739610 = some entryWorked :=
  populate_holidays_never_overwrites [(739610, "Christmas Day")] (15 / 2)
    [(739610, entryWorked)] 739610 entryWorked rfl rfl

/-! ## Theorems for claim C6 -/

/-- **C6.** Saving a day entry whose adjustment is non-zero but whose
adjustment-type field is empty, or whose adjustment-type field is
non-empty text outside {L, S, T, P} (in particular any other letter), is
rejected with a user-visible error and the entry store is unchanged. -/
theorem save_entry_flow_rejects (s : EntryStore) (entryDate : ℤ) (entryDow : String)
    (inp : DayFormInput) :
    (timedeltaTruthy inp.adjustment = true → pyStrip inp.adjust_type_val = "" →
      save_entry_flow s entryDate entryDow inp =
        (s, some "Adjustment hours require an adjust type")) ∧
    (pyStrip inp.adjust_type_val ≠ "" →
      pyUpper (pyStrip inp.adjust_type_val) ∉ (["L", "S", "T", "P"] : List String) →
      save_entry_flow s entryDate entryDow inp =
        (s, some "Invalid adjust type. Use L, S, T, or P")) := by
  constructor
  · intro htr hempty
    simp [save_entry_flow, hempty, htr]
    decide
  · intro hne hnotin
    simp [save_entry_flow, hnotin, hne]

/-- Witness for C6: an adjustment of 1 hour with an empty adjustment-type
field is rejected and the (empty) store survives untouched. -/
theorem save_entry_flow_rejects_witness :
    timedeltaTruthy (some (1 : ℚ)) = true ∧
    save_entry_flow [] 739610 "Thu" { adjustment := some 1 } =
      ([], some "Adjustment hours require an adjust type") :=
  ⟨by norm_num [timedeltaTruthy],
    (save_entry_flow_rejects [] 739610 "Thu" { adjustment := some 1 }).1
      (by norm_num [timedeltaTruthy]) (by decide)⟩

/-! ## Theorems for claim C7 -/

/-- **C7.** `delete_ticket` refuses deletion — returning `False` and
leaving the tickets table unchanged — whenever some allocation references
the ticket; with no allocation referencing the ticket it returns `True`,
and in particular retrying after all of the ticket's allocations are
removed succeeds. -/
theorem delete_ticket_spec (tk : List Ticket) (al : List TicketAllocation)
    (ticket_id : String) :
    ((∃ a ∈ al, a.ticket_id = ticket_id) → delete_ticket tk al ticket_id = (false, tk)) ∧
    ((∀ a ∈ al, a.ticket_id ≠ ticket_id) → (delete_ticket tk al ticket_id).1 = true) ∧
    (delete_ticket tk (al.filter (fun a => a.ticket_id != ticket_id)) ticket_id).1 = true := by
  refine ⟨?_, ?_, ?_⟩
  · rintro ⟨a, ha, hat⟩
    have hmem : a ∈ al.filter (fun a => a.ticket_id == ticket_id) :=
      List.mem_filter.mpr ⟨ha, by simp [hat]⟩
    have hlen : (al.filter (fun a => a.ticket_id == ticket_id)).length ≠ 0 := by
      intro h0
      rw [List.length_eq_zero] at h0
      rw [h0] at hmem
      cases hmem
    have hc : can_delete_ticket al ticket_id = false := by
      unfold can_delete_ticket
      simpa using hlen
    unfold delete_ticket
    rw [hc]
    simp
  · intro hall
    have hnil : al.filter (fun a => a.ticket_id == ticket_id) = [] := by
      rw [List.filter_eq_nil]
      intro a ha
      simpa using hall a ha
    unfold delete_ticket can_delete_ticket
    rw [hnil]
    simp
  · have hnil : (al.filter (fun a => a.ticket_id != ticket_id)).filter
        (fun a => a.ticket_id == ticket_id) = [] := by
      rw [List.filter_eq_nil]
      intro a ha
      have := (List.mem_filter.mp ha).2
      simp at this ⊢
      exact this
    unfold delete_ticket can_delete_ticket
    rw [hnil]
    simp

/-- A concrete ticket. -/
def ticketSample : Ticket :=
  { id := "PROJ-123", description := "Test project ticket", created_at := some 739253 }

/-- A concrete allocation referencing `ticketSample`. -/
def allocationSample : TicketAllocation :=
  { ticket_id := "PROJ-123", date := 739279, hours := 9 / 2 }

/-- Witness for C7: with `allocationSample` in place the delete is refused
and the ticket row survives; after removing the ticket's allocations the
retried delete succeeds. -/
theorem delete_ticket_spec_witness :
    delete_ticket [ticketSample] [allocationSample] "PROJ-123" = (false, [ticketSample]) ∧
    (delete_ticket [ticketSample]
      ([allocationSample].filter (fun a => a.ticket_id != "PROJ-123")) "PROJ-123").1 = true :=
  ⟨(delete_ticket_spec [ticketSample] [allocationSample] "PROJ-123").1
      ⟨allocationSample, List.mem_cons_self _ _, rfl⟩,
    (delete_ticket_spec [ticketSample] [allocationSample] "PROJ-123").2.2⟩

/-! ## Theorems for claim C8 -/

/-- **C8.** The allocation-status classification is a pure sequential
4-way comparison of the day's worked hours against the day's total
allocated hours: zero worked hours give the neutral marker regardless of
the store; otherwise zero allocated gives "unallocated" (`?`), allocated
less than worked gives "under" (`↓`), allocated greater than worked gives
"over" (`↑`), and equality gives "exact" (`✓`). -/
theorem get_allocation_status_spec (al : List TicketAllocation) (d : ℤ) (worked : ℚ) :
    (worked = 0 → get_allocation_status al d worked = ("-", "dim")) ∧
    (worked ≠ 0 → get_total_allocated_hours al d = 0 →
      get_allocation_status al d worked = ("?", "dim")) ∧
    (worked ≠ 0 → get_total_allocated_hours al d ≠ 0 →
      get_total_allocated_hours al d < worked →
      get_allocation_status al d worked = ("↓", "yellow")) ∧
    (worked ≠ 0 → get_total_allocated_hours al d ≠ 0 →
      worked < get_total_allocated_hours al d →
      get_allocation_status al d worked = ("↑", "red")) ∧
    (worked ≠ 0 → get_total_allocated_hours al d = worked →
      get_allocation_status al d worked = ("✓", "green")) := by
  refine ⟨?_, ?_, ?_, ?_, ?_⟩
  · intro h0
    simp [get_allocation_status, h0]
  · intro hw ha0
    simp [get_allocation_status, hw, ha0]
  · intro hw ha0 hlt
    simp [get_allocation_status, hw, ha0, hlt]
  · intro hw ha0 hgt
    have hnlt : ¬get_total_allocated_hours al d < worked := lt_asymm hgt
    simp [get_allocation_status, hw, ha0, hnlt, hgt]
  · intro hw heq
    have ha0 : get_total_allocated_hours al d ≠ 0 := by rw [heq]; exact hw
    have hnlt : ¬get_total_allocated_hours al d < worked := by rw [heq]; exact lt_irrefl _
    have hngt : ¬worked < get_total_allocated_hours al d := by rw [heq]; exact lt_irrefl _
    simp [get_allocation_status, hw, ha0, hnlt, hngt]

/-- A concrete allocation of exactly 7.5 hours. -/
def allocationExact : TicketAllocation :=
  { ticket_id := "PROJ-123", date := 739279, hours := 15 / 2 }

/-- Witness for C8 at the spec's example: worked 7.5 h and a single 7.5 h
allocation on the day classify as "exact" (`✓`). -/
theorem get_allocation_status_spec_witness :
    get_total_allocated_hours [allocationExact] 739279 = 15 / 2 ∧
    get_allocation_status [allocationExact] 739279 (15 / 2) = ("✓", "green") := by
  have htot : get_total_allocated_hours [allocationExact] 739279 = 15 / 2 := by
    norm_num [get_total_allocated_hours, allocationExact, quantize2, roundHalfEven,
      List.filter]
  exact ⟨htot,
    (get_allocation_status_spec [allocationExact] 739279 (15 / 2)).2.2.2.2
      (by norm_num) htot⟩

/-! ## Theorems for claims C9 and C10 -/

/-- Reading back the saved key after `save_allocation` yields exactly the
saved record. -/
theorem get_allocation_save_allocation (al : List TicketAllocation)
    (a : TicketAllocation) :
    get_allocation (save_allocation al a) a.ticket_id a.date = some a := by
  unfold get_allocation save_allocation
  rw [List.find?_append]
  have h1 : (al.filter (fun x => !(x.ticket_id == a.ticket_id && x.date == a.date))).find?
      (fun x => x.ticket_id == a.ticket_id && x.date == a.date) = none := by
    rw [List.find?_eq_none]
    intro x hx
    have := (List.mem_filter.mp hx).2
    simp at this ⊢
    tauto
  rw [h1]
  simp

/-- After `delete_allocation` the key no longer resolves. -/
theorem get_allocation_delete_allocation (al : List TicketAllocation)
    (ticket_id : String) (d : ℤ) :
    get_allocation (delete_allocation al ticket_id d) ticket_id d = none := by
  unfold get_allocation delete_allocation
  rw [List.find?_eq_none]
  intro x hx
  have := (List.mem_filter.mp hx).2
  simp at this ⊢
  tauto

/-- **C9.** Completing the allocation edit flow with positive hours
upserts the allocation for the (ticket id, date) pair with the given
hours; completing it with zero hours deletes the allocation for the
pair. -/
theorem on_allocation_edited_spec (al : List TicketAllocation) (ticket_id : String)
    (d : ℤ) (hours : ℚ) :
    (0 < hours → get_allocation (on_allocation_edited al ticket_id d hours) ticket_id d =
      some { ticket_id := ticket_id, date := d, hours := hours }) ∧
    (hours = 0 → get_allocation (on_allocation_edited al ticket_id d hours) ticket_id d =
      none) := by
  constructor
  · intro hpos
    unfold on_allocation_edited
    rw [if_pos hpos]
    exact get_allocation_save_allocation al
      { ticket_id := ticket_id, date := d, hours := hours }
  · intro h0
    unfold on_allocation_edited
    rw [if_neg (by simp [h0])]
    exact get_allocation_delete_allocation al ticket_id d

/-- Witness for C9: editing to 4.5 h upserts; editing to 0 h deletes. -/
theorem on_allocation_edited_spec_witness :
    get_allocation (on_allocation_edited [] "PROJ-123" 739279 (9 / 2)) "PROJ-123" 739279 =
      some { ticket_id := "PROJ-123", date := 739279, hours := 9 / 2 } ∧
    get_allocation (on_allocation_edited [allocationSample] "PROJ-123" 739279 0)
      "PROJ-123" 739279 = none :=
  ⟨(on_allocation_edited_spec [] "PROJ-123" 739279 (9 / 2)).1 (by norm_num),
    (on_allocation_edited_spec [allocationSample] "PROJ-123" 739279 0).2 rfl⟩

/-- **C10.** The allocation edit flow rebuilds the record from only the
ticket id, date and hours: for an existing allocation whose
entered-on-client flag is set, a completed edit with positive hours stores
the pair's allocation with the flag reset to false. -/
theorem on_allocation_edited_resets_flag (al : List TicketAllocation)
    (ticket_id : String) (d : ℤ) (hours : ℚ) (a : TicketAllocation)
    (ha : get_allocation al ticket_id d = some a)
    (hflag : a.entered_on_client = true) (hpos : 0 < hours) :
    get_allocation (on_allocation_edited al ticket_id d hours) ticket_id d =
      some { ticket_id := ticket_id, date := d, hours := hours,
             entered_on_client := false } := by
  unfold on_allocation_edited
  rw [if_pos hpos]
  exact get_allocation_save_allocation al
    { ticket_id := ticket_id, date := d, hours := hours }

/-- A concrete allocation already marked as entered on the client. -/
def allocationEntered : TicketAllocation :=
  { ticket_id := "PROJ-123", date := 739279, hours := 2, entered_on_client := true }

/-- Witness for C10: re-editing `allocationEntered` to 3 h stores the pair
with the entered-on-client flag back to false. -/
theorem on_allocation_edited_resets_flag_witness :
    get_allocation (on_allocation_edited [allocationEntered] "PROJ-123" 739279 3)
      "PROJ-123" 739279 =
      some { ticket_id := "PROJ-123", date := 739279, hours := 3,
             entered_on_client := false } :=
  on_allocation_edited_resets_flag [allocationEntered] "PROJ-123" 739279 3
    allocationEntered rfl rfl (by norm_num)

end Timesheet
